import Mathlib

/-!
Shallow embedding of `src/neqo-transport/src/cc/hystart.rs` (HyStart++ slow
start, RFC 9406) and verification of the specification's claims about it.

Modelling conventions:
* `usize` is `Nat` together with the bound `USIZE_MAX = 2 ^ 64 - 1`
  (64-bit target).  `usize::saturating_mul` caps at `USIZE_MAX`; the
  `+= 1` counter increments use release semantics (wrap modulo `2 ^ 64`).
* `std::time::Duration` is a `Nat` counting nanoseconds, with the maximum
  representable value `DURATION_MAX = (2 ^ 64 - 1) * 10 ^ 9 + (10 ^ 9 - 1)`
  (`Duration` is `u64` seconds plus a sub-second nanosecond count).
  `Duration` comparison and `min`/`max` order durations by their total
  nanosecond count, `Duration / u32` is floor division of the total
  nanosecond count (the standard library implementation distributes the
  division over seconds and nanoseconds, which yields exactly the floor of
  the total), and `Duration + Duration` panics when the mathematical sum
  exceeds `DURATION_MAX` (modelled by `durAdd` returning `none`).
* `packet::Number` is `u64`; only comparison is used, so it is a `Nat`.
* Panics (the `debug_assert!` on entry of `on_packets_acked`, and
  `Duration` addition overflow) make the operation return `none`.
* `RttEstimate` is read only through `.latest()` by this file; it is
  modelled by that one field, which is also what is handed to the
  classic-slow-start fallback.
-/

/-- `usize::MAX` on a 64-bit target. -/
def USIZE_MAX : Nat := 2 ^ 64 - 1

/-- `Duration::MAX` expressed in nanoseconds: `u64::MAX` seconds plus
`999_999_999` nanoseconds. -/
def DURATION_MAX : Nat := (2 ^ 64 - 1) * 1000000000 + 999999999

/-- Checked `Duration` addition: Rust `Duration + Duration` panics when the
sum is not representable. -/
def durAdd (a b : Nat) : Option Nat :=
  if a + b ≤ DURATION_MAX then some (a + b) else none

/-- `usize::saturating_mul`. -/
def saturating_mul (a b : Nat) : Nat := min (a * b) USIZE_MAX

/-- The round-tracking state (`struct State` in `hystart.rs`).  Durations
are in nanoseconds. -/
structure State where
  last_round_min_rtt : Nat
  current_round_min_rtt : Nat
  rtt_sample_count : Nat
  window_end : Option Nat
  css_baseline_min_rtt : Nat
  css_round_count : Nat
deriving DecidableEq

/-- `State::new`. -/
def State.new : State :=
  { last_round_min_rtt := DURATION_MAX
    current_round_min_rtt := DURATION_MAX
    rtt_sample_count := 0
    window_end := none
    css_baseline_min_rtt := DURATION_MAX
    css_round_count := 0 }

/-- The HyStart engine (`struct HyStart`). -/
structure HyStart where
  limit : Nat
  current : State
deriving DecidableEq

/-- `HyStart::MIN_RTT_THRESH = Duration::from_millis(4)`, in nanoseconds. -/
def HyStart.MIN_RTT_THRESH : Nat := 4000000

/-- `HyStart::MAX_RTT_THRESH = Duration::from_millis(16)`, in nanoseconds. -/
def HyStart.MAX_RTT_THRESH : Nat := 16000000

/-- `HyStart::MIN_RTT_DIVISOR`. -/
def HyStart.MIN_RTT_DIVISOR : Nat := 8

/-- `HyStart::N_RTT_SAMPLE`. -/
def HyStart.N_RTT_SAMPLE : Nat := 8

/-- `HyStart::CSS_GROWTH_DIVISOR`. -/
def HyStart.CSS_GROWTH_DIVISOR : Nat := 4

/-- `HyStart::CSS_ROUNDS`. -/
def HyStart.CSS_ROUNDS : Nat := 5

/-- `HyStart::NON_PACED_L`. -/
def HyStart.NON_PACED_L : Nat := 8

/-- `HyStart::new(pacing)`. -/
def HyStart.new (pacing : Bool) : HyStart :=
  { limit := if pacing then USIZE_MAX else HyStart.NON_PACED_L
    current := State.new }

/-- `HyStart::in_css`: `css_baseline_min_rtt != Duration::MAX`. -/
def HyStart.in_css (h : HyStart) : Bool :=
  decide (h.current.css_baseline_min_rtt ≠ DURATION_MAX)

/-- `HyStart::collect_rtt_sample`. -/
def HyStart.collect_rtt_sample (h : HyStart) (rtt : Nat) : HyStart :=
  { h with current :=
    { h.current with
      current_round_min_rtt := min h.current.current_round_min_rtt rtt
      rtt_sample_count := (h.current.rtt_sample_count + 1) % 2 ^ 64 } }

/-- `HyStart::maybe_exit_to_ca`: increments `css_round_count` and reports
whether it reached `CSS_ROUNDS`. -/
def HyStart.maybe_exit_to_ca (h : HyStart) : HyStart × Bool :=
  let c := (h.current.css_round_count + 1) % 2 ^ 64
  ({ h with current := { h.current with css_round_count := c } },
   decide (HyStart.CSS_ROUNDS ≤ c))

/-- `HyStart::calc_cwnd_increase`. -/
def HyStart.calc_cwnd_increase (h : HyStart) (new_acked max_datagram_size : Nat)
    (css : Bool) : Nat :=
  let cwnd_increase := min (saturating_mul h.limit max_datagram_size) new_acked
  if css then cwnd_increase / HyStart.CSS_GROWTH_DIVISOR else cwnd_increase

/-- `HyStart::enough_samples`. -/
def HyStart.enough_samples (h : HyStart) : Bool :=
  decide (HyStart.N_RTT_SAMPLE ≤ h.current.rtt_sample_count)

/-- `HyStart::maybe_start_new_round`. -/
def HyStart.maybe_start_new_round (h : HyStart) (sent_pn : Nat) : HyStart :=
  if h.current.window_end.isSome then h
  else
    { h with current :=
      { h.current with
        window_end := some sent_pn
        last_round_min_rtt := h.current.current_round_min_rtt
        current_round_min_rtt := DURATION_MAX
        rtt_sample_count := 0 } }

/-- `<HyStart as SlowStart>::on_packet_sent`. -/
def HyStart.on_packet_sent (h : HyStart) (sent_pn : Nat) : HyStart :=
  h.maybe_start_new_round sent_pn

/-- The RTT estimator input; `on_packets_acked` only reads `latest()`. -/
structure RttEst where
  latest : Nat
deriving DecidableEq

/-- The argument bundle of `on_packets_acked`. -/
structure AckInput where
  curr_cwnd : Nat
  ssthresh : Nat
  new_acked : Nat
  rtt_est : RttEst
  max_datagram_size : Nat
  largest_acked : Nat
deriving DecidableEq

/-- `SlowStartResult` from `classic_cc`. -/
structure SlowStartResult where
  cwnd_increase : Nat
  exit_slow_start : Bool
deriving DecidableEq

/-- Modelled from the spec: `ClassicSlowStart` (the classic, non-hybrid
slow-start fallback) lives in `classic_slow_start.rs`, which is not part of
the supplied sources; the spec describes it only as an interface ("a
fallback growth-rate function ... specified only as an interface").  Since
`on_packets_acked` always invokes it as `ClassicSlowStart::default()` on
the same six arguments, it is modelled as an arbitrary pure function from
the argument bundle to a result. -/
def ClassicSS : Type := AckInput → SlowStartResult

/-- The `rtt_thresh` computation in `on_packets_acked`:
`max(MIN_RTT_THRESH, min(last_round_min_rtt / MIN_RTT_DIVISOR, MAX_RTT_THRESH))`. -/
def rtt_thresh (last : Nat) : Nat :=
  max HyStart.MIN_RTT_THRESH (min (last / HyStart.MIN_RTT_DIVISOR) HyStart.MAX_RTT_THRESH)

/-- Guard of the CSS-exit branch of `on_packets_acked` (lines 195-197),
evaluated on the state after sample collection. -/
def HyStart.exitFires (h : HyStart) : Bool :=
  h.in_css && h.enough_samples &&
    decide (h.current.current_round_min_rtt < h.current.css_baseline_min_rtt)

/-- The CSS-exit branch: reset `css_baseline_min_rtt` and `css_round_count`
when the guard fires. -/
def HyStart.exitStep (h : HyStart) : HyStart :=
  if h.exitFires then
    { h with current :=
      { h.current with css_baseline_min_rtt := DURATION_MAX, css_round_count := 0 } }
  else h

/-- Guard of the CSS-entry branch (lines 209-212), before the threshold
comparison. -/
def HyStart.entryGuard (h : HyStart) : Bool :=
  !h.in_css && h.enough_samples &&
    decide (h.current.current_round_min_rtt ≠ DURATION_MAX) &&
    decide (h.current.last_round_min_rtt ≠ DURATION_MAX)

/-- Whether the CSS-entry transition fires on state `h` (guard holds, the
`Duration` addition does not overflow, and the threshold comparison holds). -/
def HyStart.entryFires (h : HyStart) : Bool :=
  h.entryGuard &&
    match durAdd h.current.last_round_min_rtt (rtt_thresh h.current.last_round_min_rtt) with
    | some t => decide (t ≤ h.current.current_round_min_rtt)
    | none => false

/-- The CSS-entry branch (lines 209-227).  `none` models the panic of
`last_round_min_rtt + rtt_thresh` on `Duration` overflow. -/
def HyStart.entryStep (h : HyStart) : Option HyStart :=
  if h.entryGuard then
    match durAdd h.current.last_round_min_rtt (rtt_thresh h.current.last_round_min_rtt) with
    | some t =>
      if t ≤ h.current.current_round_min_rtt then
        some { h with current :=
          { h.current with css_baseline_min_rtt := h.current.current_round_min_rtt } }
      else some h
    | none => none
  else some h

/-- The end-of-round check of `on_packets_acked` (lines 233-245): close the
round when `largest_acked >= window_end` and, while in CSS, drive the CSS
round counter.  Returns the new state and the `exit_slow_start` flag. -/
def HyStart.closureStep (h : HyStart) (largest_acked : Nat) : HyStart × Bool :=
  match h.current.window_end with
  | some window_end =>
    if window_end ≤ largest_acked then
      let h2 : HyStart := { h with current := { h.current with window_end := none } }
      if h2.in_css then h2.maybe_exit_to_ca else (h2, false)
    else (h, false)
  | none => (h, false)

/-- The body of `on_packets_acked` after the fallback gate (lines 182-250):
collect the sample, run the CSS-exit and CSS-entry branches, compute the
growth with the CSS state as of after those branches, then run the
end-of-round check. -/
def HyStart.hystartPath (h : HyStart) (i : AckInput) :
    Option (HyStart × SlowStartResult) :=
  match ((h.collect_rtt_sample i.rtt_est.latest).exitStep).entryStep with
  | none => none
  | some h3 =>
    some ((h3.closureStep i.largest_acked).1,
      { cwnd_increase := h3.calc_cwnd_increase i.new_acked i.max_datagram_size h3.in_css
        exit_slow_start := (h3.closureStep i.largest_acked).2 })

/-- `<HyStart as SlowStart>::on_packets_acked`.  `classic` stands for
`ClassicSlowStart::default().on_packets_acked` applied to the same
arguments (see `ClassicSS`).  `none` models a panic: either the
`debug_assert!(ssthresh >= curr_cwnd)` on entry, or `Duration` addition
overflow in the CSS-entry branch. -/
def HyStart.on_packets_acked (h : HyStart) (classic : ClassicSS) (i : AckInput) :
    Option (HyStart × SlowStartResult) :=
  if i.ssthresh < i.curr_cwnd then none
  else if i.ssthresh ≠ USIZE_MAX then some (h, classic i)
  else h.hystartPath i

/-- An event of the engine's public interface. -/
inductive Event where
  | sent (pn : Nat)
  | acked (i : AckInput)
deriving DecidableEq

/-- One interface event applied to the engine.  The `Bool` component is the
`exit_slow_start` flag of the call's result (`false` for a send event). -/
def HyStart.step (classic : ClassicSS) (h : HyStart) : Event → Option (HyStart × Bool)
  | .sent pn => some (h.on_packet_sent pn, false)
  | .acked i =>
    match h.on_packets_acked classic i with
    | some (h2, r) => some (h2, r.exit_slow_start)
    | none => none

/-- Run a list of interface events, collecting the per-event
`exit_slow_start` flags. -/
def runEvents (classic : ClassicSS) (h : HyStart) : List Event → Option (HyStart × List Bool)
  | [] => some (h, [])
  | e :: es =>
    match HyStart.step classic h e with
    | none => none
    | some (h2, b) =>
      match runEvents classic h2 es with
      | none => none
      | some (hf, bs) => some (hf, b :: bs)

/-- A state is reachable when some event trace leads a freshly constructed
engine to it. -/
def Reaches (classic : ClassicSS) (h : HyStart) : Prop :=
  ∃ pacing events bs, runEvents classic (HyStart.new pacing) events = some (h, bs)

/-! ### Basic field lemmas -/

theorem collect_last (h : HyStart) (rtt : Nat) :
    (h.collect_rtt_sample rtt).current.last_round_min_rtt = h.current.last_round_min_rtt := rfl

theorem collect_current (h : HyStart) (rtt : Nat) :
    (h.collect_rtt_sample rtt).current.current_round_min_rtt =
      min h.current.current_round_min_rtt rtt := rfl

theorem collect_count (h : HyStart) (rtt : Nat) :
    (h.collect_rtt_sample rtt).current.rtt_sample_count =
      (h.current.rtt_sample_count + 1) % 2 ^ 64 := rfl

theorem collect_window (h : HyStart) (rtt : Nat) :
    (h.collect_rtt_sample rtt).current.window_end = h.current.window_end := rfl

theorem collect_base (h : HyStart) (rtt : Nat) :
    (h.collect_rtt_sample rtt).current.css_baseline_min_rtt =
      h.current.css_baseline_min_rtt := rfl

theorem collect_css_count (h : HyStart) (rtt : Nat) :
    (h.collect_rtt_sample rtt).current.css_round_count = h.current.css_round_count := rfl

theorem collect_limit (h : HyStart) (rtt : Nat) :
    (h.collect_rtt_sample rtt).limit = h.limit := rfl

theorem in_css_collect (h : HyStart) (rtt : Nat) :
    (h.collect_rtt_sample rtt).in_css = h.in_css := rfl

/-! ### `exitStep` lemmas -/

theorem exitStep_of_not_fires {h : HyStart} (hx : h.exitFires = false) :
    h.exitStep = h := by
  simp [HyStart.exitStep, hx]

theorem exitStep_of_fires {h : HyStart} (hx : h.exitFires = true) :
    h.exitStep = { h with current :=
      { h.current with css_baseline_min_rtt := DURATION_MAX, css_round_count := 0 } } := by
  simp [HyStart.exitStep, hx]

theorem exitFires_of_not_css {h : HyStart} (hc : h.in_css = false) :
    h.exitFires = false := by
  simp [HyStart.exitFires, hc]

theorem exitStep_last (h : HyStart) :
    h.exitStep.current.last_round_min_rtt = h.current.last_round_min_rtt := by
  unfold HyStart.exitStep; split <;> rfl

theorem exitStep_current (h : HyStart) :
    h.exitStep.current.current_round_min_rtt = h.current.current_round_min_rtt := by
  unfold HyStart.exitStep; split <;> rfl

theorem exitStep_count (h : HyStart) :
    h.exitStep.current.rtt_sample_count = h.current.rtt_sample_count := by
  unfold HyStart.exitStep; split <;> rfl

theorem exitStep_window (h : HyStart) :
    h.exitStep.current.window_end = h.current.window_end := by
  unfold HyStart.exitStep; split <;> rfl

theorem exitStep_limit (h : HyStart) :
    h.exitStep.limit = h.limit := by
  unfold HyStart.exitStep; split <;> rfl

/-! ### `entryStep` lemmas -/

theorem entryStep_of_in_css {h : HyStart} (hc : h.in_css = true) :
    h.entryStep = some h := by
  simp [HyStart.entryStep, HyStart.entryGuard, hc]

theorem entryFires_elim {h : HyStart} (he : h.entryFires = true) :
    h.entryGuard = true ∧
      ∃ t, durAdd h.current.last_round_min_rtt (rtt_thresh h.current.last_round_min_rtt) =
        some t ∧ t ≤ h.current.current_round_min_rtt := by
  unfold HyStart.entryFires at he
  rcases Bool.and_eq_true_iff.mp he with ⟨hg, hm⟩
  refine ⟨hg, ?_⟩
  cases hd : durAdd h.current.last_round_min_rtt (rtt_thresh h.current.last_round_min_rtt) with
  | none => rw [hd] at hm; exact absurd hm (by simp)
  | some t => rw [hd] at hm; exact ⟨t, rfl, by simpa using hm⟩

theorem entryStep_of_fires {h : HyStart} (he : h.entryFires = true) :
    h.entryStep = some { h with current :=
      { h.current with css_baseline_min_rtt := h.current.current_round_min_rtt } } := by
  obtain ⟨hg, t, hd, ht⟩ := entryFires_elim he
  unfold HyStart.entryStep
  rw [hg, if_pos rfl, hd]
  exact if_pos ht

theorem entryStep_some_cases {h h3 : HyStart} (hs : h.entryStep = some h3) :
    h3 = h ∨ (h.entryFires = true ∧ h3 = { h with current :=
      { h.current with css_baseline_min_rtt := h.current.current_round_min_rtt } }) := by
  unfold HyStart.entryStep at hs
  split at hs
  · rename_i hg
    split at hs
    · rename_i t hd
      split at hs
      · rename_i ht
        have hef : h.entryFires = true := by
          unfold HyStart.entryFires; rw [hg, hd]; simpa using ht
        exact Or.inr ⟨hef, (Option.some_inj.mp hs).symm⟩
      · exact Or.inl (Option.some_inj.mp hs).symm
    · exact absurd hs (by simp)
  · exact Or.inl (Option.some_inj.mp hs).symm

theorem entryStep_preserves {h h3 : HyStart} (hs : h.entryStep = some h3) :
    h3.limit = h.limit ∧
    h3.current.last_round_min_rtt = h.current.last_round_min_rtt ∧
    h3.current.current_round_min_rtt = h.current.current_round_min_rtt ∧
    h3.current.rtt_sample_count = h.current.rtt_sample_count ∧
    h3.current.window_end = h.current.window_end ∧
    h3.current.css_round_count = h.current.css_round_count := by
  rcases entryStep_some_cases hs with rfl | ⟨-, rfl⟩ <;>
    exact ⟨rfl, rfl, rfl, rfl, rfl, rfl⟩

theorem entryStep_not_fires_base {h h3 : HyStart} (hs : h.entryStep = some h3)
    (he : h.entryFires = false) :
    h3 = h := by
  rcases entryStep_some_cases hs with rfl | ⟨hef, -⟩
  · rfl
  · rw [hef] at he; exact absurd he (by simp)

/-! ### `closureStep` lemmas -/

theorem closureStep_of_no_window {h : HyStart} (hw : h.current.window_end = none)
    (la : Nat) : h.closureStep la = (h, false) := by
  unfold HyStart.closureStep
  rw [hw]

theorem closureStep_of_no_close {h : HyStart} {w : Nat}
    (hw : h.current.window_end = some w) {la : Nat} (hlt : ¬ w ≤ la) :
    h.closureStep la = (h, false) := by
  unfold HyStart.closureStep
  rw [hw]
  exact if_neg hlt

theorem closureStep_of_close_not_css {h : HyStart} {w : Nat}
    (hw : h.current.window_end = some w) {la : Nat} (hle : w ≤ la)
    (hc : h.in_css = false) :
    h.closureStep la =
      ({ h with current := { h.current with window_end := none } }, false) := by
  unfold HyStart.closureStep
  rw [hw]
  have hc2 : ({ h with current := { h.current with window_end := none } } : HyStart).in_css
      = false := hc
  simp [hle, hc2]

theorem closureStep_of_close_css {h : HyStart} {w : Nat}
    (hw : h.current.window_end = some w) {la : Nat} (hle : w ≤ la)
    (hc : h.in_css = true) :
    h.closureStep la =
      ({ h with current :=
          { h.current with
            window_end := none
            css_round_count := (h.current.css_round_count + 1) % 2 ^ 64 } },
       decide (HyStart.CSS_ROUNDS ≤ (h.current.css_round_count + 1) % 2 ^ 64)) := by
  unfold HyStart.closureStep
  rw [hw]
  have hc2 : ({ h with current := { h.current with window_end := none } } : HyStart).in_css
      = true := hc
  simp [hle, hc2, HyStart.maybe_exit_to_ca]

theorem closureStep_base (h : HyStart) (la : Nat) :
    (h.closureStep la).1.current.css_baseline_min_rtt = h.current.css_baseline_min_rtt := by
  unfold HyStart.closureStep HyStart.maybe_exit_to_ca
  split
  · split
    · dsimp only
      split <;> rfl
    · rfl
  · rfl

theorem closureStep_in_css (h : HyStart) (la : Nat) :
    (h.closureStep la).1.in_css = h.in_css := by
  unfold HyStart.in_css
  rw [closureStep_base]

theorem closureStep_current (h : HyStart) (la : Nat) :
    (h.closureStep la).1.current.current_round_min_rtt =
      h.current.current_round_min_rtt := by
  unfold HyStart.closureStep HyStart.maybe_exit_to_ca
  split
  · split
    · dsimp only
      split <;> rfl
    · rfl
  · rfl

theorem closureStep_last (h : HyStart) (la : Nat) :
    (h.closureStep la).1.current.last_round_min_rtt = h.current.last_round_min_rtt := by
  unfold HyStart.closureStep HyStart.maybe_exit_to_ca
  split
  · split
    · dsimp only
      split <;> rfl
    · rfl
  · rfl

theorem closureStep_count (h : HyStart) (la : Nat) :
    (h.closureStep la).1.current.rtt_sample_count = h.current.rtt_sample_count := by
  unfold HyStart.closureStep HyStart.maybe_exit_to_ca
  split
  · split
    · dsimp only
      split <;> rfl
    · rfl
  · rfl

theorem closureStep_limit (h : HyStart) (la : Nat) :
    (h.closureStep la).1.limit = h.limit := by
  unfold HyStart.closureStep HyStart.maybe_exit_to_ca
  split
  · split
    · dsimp only
      split <;> rfl
    · rfl
  · rfl

/-! ### `on_packets_acked` unfolding lemmas -/

theorem acked_assert {h : HyStart} {classic : ClassicSS} {i : AckInput}
    (ha : i.ssthresh < i.curr_cwnd) :
    h.on_packets_acked classic i = none := by
  unfold HyStart.on_packets_acked
  rw [if_pos ha]

theorem acked_fallback {h : HyStart} {classic : ClassicSS} {i : AckInput}
    (ha : ¬ i.ssthresh < i.curr_cwnd) (hs : i.ssthresh ≠ USIZE_MAX) :
    h.on_packets_acked classic i = some (h, classic i) := by
  unfold HyStart.on_packets_acked
  rw [if_neg ha, if_pos hs]

theorem acked_hystart {h : HyStart} {classic : ClassicSS} {i : AckInput}
    (ha : ¬ i.ssthresh < i.curr_cwnd) (hs : i.ssthresh = USIZE_MAX) :
    h.on_packets_acked classic i = h.hystartPath i := by
  unfold HyStart.on_packets_acked
  rw [if_neg ha, if_neg (by simp [hs])]

theorem hystartPath_some_elim {h : HyStart} {i : AckInput} {hf : HyStart}
    {res : SlowStartResult} (hp : h.hystartPath i = some (hf, res)) :
    ∃ h3, ((h.collect_rtt_sample i.rtt_est.latest).exitStep).entryStep = some h3 ∧
      hf = (h3.closureStep i.largest_acked).1 ∧
      res = { cwnd_increase := h3.calc_cwnd_increase i.new_acked i.max_datagram_size h3.in_css
              exit_slow_start := (h3.closureStep i.largest_acked).2 } := by
  unfold HyStart.hystartPath at hp
  split at hp
  · exact absurd hp (by simp)
  · rename_i h3 hmid
    refine ⟨h3, hmid, ?_, ?_⟩
    · exact congrArg Prod.fst (Option.some_inj.mp hp).symm
    · exact congrArg Prod.snd (Option.some_inj.mp hp).symm

theorem hystartPath_some_intro {h : HyStart} {i : AckInput} {h3 : HyStart}
    (hmid : ((h.collect_rtt_sample i.rtt_est.latest).exitStep).entryStep = some h3) :
    h.hystartPath i =
      some ((h3.closureStep i.largest_acked).1,
        { cwnd_increase := h3.calc_cwnd_increase i.new_acked i.max_datagram_size h3.in_css
          exit_slow_start := (h3.closureStep i.largest_acked).2 }) := by
  unfold HyStart.hystartPath
  rw [hmid]

/-! ### `on_packet_sent` lemmas -/

theorem sent_of_open {h : HyStart} {w : Nat} (hw : h.current.window_end = some w)
    (pn : Nat) : h.on_packet_sent pn = h := by
  unfold HyStart.on_packet_sent HyStart.maybe_start_new_round
  rw [hw]
  rfl

theorem sent_of_closed {h : HyStart} (hw : h.current.window_end = none) (pn : Nat) :
    h.on_packet_sent pn =
      { h with current :=
        { h.current with
          window_end := some pn
          last_round_min_rtt := h.current.current_round_min_rtt
          current_round_min_rtt := DURATION_MAX
          rtt_sample_count := 0 } } := by
  unfold HyStart.on_packet_sent HyStart.maybe_start_new_round
  rw [hw]
  rfl

theorem sent_base (h : HyStart) (pn : Nat) :
    (h.on_packet_sent pn).current.css_baseline_min_rtt =
      h.current.css_baseline_min_rtt := by
  unfold HyStart.on_packet_sent HyStart.maybe_start_new_round
  split <;> rfl

theorem sent_css_count (h : HyStart) (pn : Nat) :
    (h.on_packet_sent pn).current.css_round_count = h.current.css_round_count := by
  unfold HyStart.on_packet_sent HyStart.maybe_start_new_round
  split <;> rfl

theorem sent_in_css (h : HyStart) (pn : Nat) :
    (h.on_packet_sent pn).in_css = h.in_css := by
  unfold HyStart.in_css
  rw [sent_base]

/-! ### Whole-call lemmas -/

theorem entryGuard_elim {h : HyStart} (hg : h.entryGuard = true) :
    h.in_css = false ∧ h.enough_samples = true ∧
      h.current.current_round_min_rtt ≠ DURATION_MAX ∧
      h.current.last_round_min_rtt ≠ DURATION_MAX := by
  unfold HyStart.entryGuard at hg
  simp only [Bool.and_eq_true, Bool.not_eq_true', decide_eq_true_eq] at hg
  tauto

theorem closureStep_css_count_of_not_css {h : HyStart} (hc : h.in_css = false)
    (la : Nat) :
    (h.closureStep la).1.current.css_round_count = h.current.css_round_count := by
  rcases hw : h.current.window_end with - | w
  · rw [closureStep_of_no_window hw]
  · by_cases hle : w ≤ la
    · rw [closureStep_of_close_not_css hw hle hc]
    · rw [closureStep_of_no_close hw hle]

/-- A call from a state that is in CSS and whose CSS-exit branch does not
fire: the state passes unchanged through the phase-transition branches and
only the end-of-round check mutates it. -/
theorem css_call (classic : ClassicSS) {h : HyStart} {i : AckInput}
    (hcss : h.in_css = true) (hss : i.ssthresh = USIZE_MAX)
    (hcw : i.curr_cwnd ≤ USIZE_MAX)
    (hex : (h.collect_rtt_sample i.rtt_est.latest).exitFires = false) :
    h.on_packets_acked classic i =
      some (((h.collect_rtt_sample i.rtt_est.latest).closureStep i.largest_acked).1,
        { cwnd_increase := (h.collect_rtt_sample i.rtt_est.latest).calc_cwnd_increase
            i.new_acked i.max_datagram_size (h.collect_rtt_sample i.rtt_est.latest).in_css
          exit_slow_start :=
            ((h.collect_rtt_sample i.rtt_est.latest).closureStep i.largest_acked).2 }) := by
  have ha : ¬ i.ssthresh < i.curr_cwnd := by rw [hss]; exact Nat.not_lt.mpr hcw
  rw [acked_hystart ha hss]
  have h1css : (h.collect_rtt_sample i.rtt_est.latest).in_css = true := by
    rw [in_css_collect]; exact hcss
  have hmid : ((h.collect_rtt_sample i.rtt_est.latest).exitStep).entryStep
      = some (h.collect_rtt_sample i.rtt_est.latest) := by
    rw [exitStep_of_not_fires hex]; exact entryStep_of_in_css h1css
  exact hystartPath_some_intro hmid

/-- A call from a state that is not in CSS and whose CSS-entry transition
fires: the baseline is set to the (post-collection) current round minimum
before the end-of-round check runs. -/
theorem entry_call (classic : ClassicSS) {h : HyStart} {i : AckInput}
    (hnc : h.in_css = false) (hss : i.ssthresh = USIZE_MAX)
    (hcw : i.curr_cwnd ≤ USIZE_MAX)
    (hef : (h.collect_rtt_sample i.rtt_est.latest).entryFires = true) :
    h.on_packets_acked classic i =
      some ((HyStart.closureStep
          { h.collect_rtt_sample i.rtt_est.latest with current :=
            { (h.collect_rtt_sample i.rtt_est.latest).current with css_baseline_min_rtt :=
              (h.collect_rtt_sample i.rtt_est.latest).current.current_round_min_rtt } }
          i.largest_acked).1,
        { cwnd_increase := HyStart.calc_cwnd_increase
            { h.collect_rtt_sample i.rtt_est.latest with current :=
              { (h.collect_rtt_sample i.rtt_est.latest).current with css_baseline_min_rtt :=
                (h.collect_rtt_sample i.rtt_est.latest).current.current_round_min_rtt } }
            i.new_acked i.max_datagram_size
            (HyStart.in_css
              { h.collect_rtt_sample i.rtt_est.latest with current :=
                { (h.collect_rtt_sample i.rtt_est.latest).current with css_baseline_min_rtt :=
                  (h.collect_rtt_sample i.rtt_est.latest).current.current_round_min_rtt } })
          exit_slow_start := (HyStart.closureStep
            { h.collect_rtt_sample i.rtt_est.latest with current :=
              { (h.collect_rtt_sample i.rtt_est.latest).current with css_baseline_min_rtt :=
                (h.collect_rtt_sample i.rtt_est.latest).current.current_round_min_rtt } }
            i.largest_acked).2 }) := by
  have ha : ¬ i.ssthresh < i.curr_cwnd := by rw [hss]; exact Nat.not_lt.mpr hcw
  rw [acked_hystart ha hss]
  have h1nc : (h.collect_rtt_sample i.rtt_est.latest).in_css = false := by
    rw [in_css_collect]; exact hnc
  have hmid : ((h.collect_rtt_sample i.rtt_est.latest).exitStep).entryStep
      = some { h.collect_rtt_sample i.rtt_est.latest with current :=
        { (h.collect_rtt_sample i.rtt_est.latest).current with css_baseline_min_rtt :=
          (h.collect_rtt_sample i.rtt_est.latest).current.current_round_min_rtt } } := by
    rw [exitStep_of_not_fires (exitFires_of_not_css h1nc)]
    exact entryStep_of_fires hef
  exact hystartPath_some_intro hmid

/-! ### Reachability invariant: outside CSS the CSS round counter is 0 -/

/-- Outside CSS the CSS round counter is 0 (it is only ever incremented
while in CSS and is reset on every CSS exit). -/
def CountZero (h : HyStart) : Prop :=
  h.in_css = false → h.current.css_round_count = 0

theorem countZero_new (pacing : Bool) : CountZero (HyStart.new pacing) :=
  fun _ => rfl

theorem acked_CountZero {classic : ClassicSS} {h h2 : HyStart} {i : AckInput}
    {r : SlowStartResult} (hI : CountZero h)
    (hc : h.on_packets_acked classic i = some (h2, r)) : CountZero h2 := by
  unfold HyStart.on_packets_acked at hc
  split at hc
  · exact absurd hc (by simp)
  · split at hc
    · have h2eq : h = h2 := congrArg Prod.fst (Option.some_inj.mp hc)
      exact h2eq ▸ hI
    · obtain ⟨h3, hmid, rfl, -⟩ := hystartPath_some_elim hc
      intro hfc
      rw [closureStep_in_css] at hfc
      rcases entryStep_some_cases hmid with rfl | ⟨hef, rfl⟩
      · by_cases hx : (h.collect_rtt_sample i.rtt_est.latest).exitFires = true
        · rw [exitStep_of_fires hx] at hfc ⊢
          rw [closureStep_css_count_of_not_css hfc]
        · have hxf : (h.collect_rtt_sample i.rtt_est.latest).exitFires = false :=
            Bool.not_eq_true _ ▸ hx
          rw [exitStep_of_not_fires hxf] at hfc ⊢
          rw [closureStep_css_count_of_not_css hfc, collect_css_count]
          rw [in_css_collect] at hfc
          exact hI hfc
      · obtain ⟨-, -, hcur, -⟩ := entryGuard_elim (entryFires_elim hef).1
        exact absurd hfc (by simp [HyStart.in_css, hcur])

theorem step_CountZero {classic : ClassicSS} {h h2 : HyStart} {e : Event} {b : Bool}
    (hI : CountZero h) (hs : HyStart.step classic h e = some (h2, b)) : CountZero h2 := by
  cases e with
  | sent pn =>
    simp only [HyStart.step] at hs
    have h2eq : h.on_packet_sent pn = h2 := congrArg Prod.fst (Option.some_inj.mp hs)
    subst h2eq
    intro hfc
    rw [sent_in_css] at hfc
    rw [sent_css_count]
    exact hI hfc
  | acked i =>
    simp only [HyStart.step] at hs
    cases hc : h.on_packets_acked classic i with
    | none => rw [hc] at hs; exact absurd hs (by simp)
    | some p =>
      rw [hc] at hs
      obtain ⟨h3, r⟩ := p
      have h2eq : h3 = h2 := congrArg Prod.fst (Option.some_inj.mp hs)
      exact h2eq ▸ acked_CountZero hI hc

theorem runEvents_CountZero {classic : ClassicSS} :
    ∀ (es : List Event) (h hf : HyStart) (bs : List Bool), CountZero h →
      runEvents classic h es = some (hf, bs) → CountZero hf := by
  intro es
  induction es with
  | nil =>
    intro h hf bs hI hr
    unfold runEvents at hr
    have h2eq : h = hf := congrArg Prod.fst (Option.some_inj.mp hr)
    exact h2eq ▸ hI
  | cons e es ih =>
    intro h hf bs hI hr
    unfold runEvents at hr
    split at hr
    · exact absurd hr (by simp)
    · rename_i h2 b hs
      split at hr
      · exact absurd hr (by simp)
      · rename_i hf2 bs2 hr2
        have h2eq : hf2 = hf := congrArg Prod.fst (Option.some_inj.mp hr)
        exact h2eq ▸ ih h2 hf2 bs2 (step_CountZero hI hs) hr2

theorem reaches_CountZero {classic : ClassicSS} {h : HyStart}
    (hr : Reaches classic h) : CountZero h := by
  obtain ⟨pacing, es, bs, hrun⟩ := hr
  exact runEvents_CountZero es _ h bs (countZero_new pacing) hrun

/-! ### CSS round counting over event traces -/

/-- The expected evolution of the open-round marker, the CSS round counter
and the per-event `exit_slow_start` flags along an event trace during which
the engine stays in CSS: a closure (an ack covering the round boundary)
increments the counter and reports `exit_slow_start` exactly when the
incremented counter reaches `CSS_ROUNDS`; all other events report `false`.
Arguments: current `window_end`, current `css_round_count`, remaining
events.  Returns final `window_end`, final `css_round_count`, flag list. -/
def cssTracePlan (w : Option Nat) (c : Nat) : List Event → Option Nat × Nat × List Bool
  | [] => (w, c, [])
  | .sent pn :: es =>
    let w2 : Option Nat := match w with | some x => some x | none => some pn
    let r := cssTracePlan w2 c es
    (r.1, r.2.1, false :: r.2.2)
  | .acked i :: es =>
    match w with
    | some we =>
      if we ≤ i.largest_acked then
        let r := cssTracePlan none (c + 1) es
        (r.1, r.2.1, decide (HyStart.CSS_ROUNDS ≤ c + 1) :: r.2.2)
      else
        let r := cssTracePlan (some we) c es
        (r.1, r.2.1, false :: r.2.2)
    | none =>
      let r := cssTracePlan none c es
      (r.1, r.2.1, false :: r.2.2)

/-- Side conditions of a trace along which HyStart++ keeps running and the
engine never leaves CSS: every ack-batch call uses the sentinel threshold,
respects the asserted precondition, and its CSS-exit branch does not fire. -/
def cssSafeTrace (classic : ClassicSS) (h : HyStart) : List Event → Bool
  | [] => true
  | .sent pn :: es => cssSafeTrace classic (h.on_packet_sent pn) es
  | .acked i :: es =>
    decide (i.ssthresh = USIZE_MAX) && decide (i.curr_cwnd ≤ USIZE_MAX) &&
      !(h.collect_rtt_sample i.rtt_est.latest).exitFires &&
      (match h.on_packets_acked classic i with
       | some (h2, _) => cssSafeTrace classic h2 es
       | none => false)

/-- Running any event trace from a state in CSS, under the side conditions
of `cssSafeTrace`: the engine stays in CSS, the baseline is preserved, the
CSS round counter counts exactly the round closures, and the
`exit_slow_start` flags follow `cssTracePlan`. -/
theorem cssRun {classic : ClassicSS} :
    ∀ (es : List Event) (h : HyStart), h.in_css = true →
      cssSafeTrace classic h es = true →
      h.current.css_round_count + es.length < 2 ^ 64 →
      ∃ hf bs, runEvents classic h es = some (hf, bs) ∧
        hf.in_css = true ∧
        hf.current.css_baseline_min_rtt = h.current.css_baseline_min_rtt ∧
        hf.current.window_end =
          (cssTracePlan h.current.window_end h.current.css_round_count es).1 ∧
        hf.current.css_round_count =
          (cssTracePlan h.current.window_end h.current.css_round_count es).2.1 ∧
        bs = (cssTracePlan h.current.window_end h.current.css_round_count es).2.2 := by
  intro es
  induction es with
  | nil =>
    intro h hcss hsafe hbound
    exact ⟨h, [], rfl, hcss, rfl, rfl, rfl, rfl⟩
  | cons e es ih =>
    intro h hcss hsafe hbound
    cases e with
    | sent pn =>
      have hsafe2 : cssSafeTrace classic (h.on_packet_sent pn) es = true := hsafe
      have hc2 : (h.on_packet_sent pn).in_css = true := by
        rw [sent_in_css]; exact hcss
      have hcnt2 : (h.on_packet_sent pn).current.css_round_count =
          h.current.css_round_count := sent_css_count h pn
      have hbase2 : (h.on_packet_sent pn).current.css_baseline_min_rtt =
          h.current.css_baseline_min_rtt := sent_base h pn
      have hwin2 : (h.on_packet_sent pn).current.window_end =
          (match h.current.window_end with | some x => some x | none => some pn) := by
        rcases hw : h.current.window_end with - | w
        · rw [sent_of_closed hw]
        · rw [sent_of_open hw, hw]
      have hbound2 : (h.on_packet_sent pn).current.css_round_count + es.length < 2 ^ 64 := by
        rw [hcnt2]
        simp only [List.length_cons] at hbound
        omega
      obtain ⟨hf, bs, hrun, hfc, hfb, hfw, hfcnt, hbs⟩ :=
        ih (h.on_packet_sent pn) hc2 hsafe2 hbound2
      refine ⟨hf, false :: bs, ?_, hfc, by rw [hfb, hbase2], ?_, ?_, ?_⟩
      · simp only [runEvents, HyStart.step]
        rw [hrun]
      · simp only [cssTracePlan]
        rw [hfw, hwin2, hcnt2]
      · simp only [cssTracePlan]
        rw [hfcnt, hwin2, hcnt2]
      · simp only [cssTracePlan]
        rw [hbs, hwin2, hcnt2]
    | acked i =>
      have hsafe' := hsafe
      simp only [cssSafeTrace, Bool.and_eq_true, Bool.not_eq_true', decide_eq_true_eq]
        at hsafe'
      obtain ⟨⟨⟨hss, hcw⟩, hex⟩, hrest⟩ := hsafe'
      have hcall := css_call classic hcss hss hcw hex
      have hb : h.current.css_baseline_min_rtt ≠ DURATION_MAX := by
        simpa [HyStart.in_css] using hcss
      have h1w : (h.collect_rtt_sample i.rtt_est.latest).current.window_end =
          h.current.window_end := collect_window h _
      have h1c : (h.collect_rtt_sample i.rtt_est.latest).current.css_round_count =
          h.current.css_round_count := collect_css_count h _
      have h1css : (h.collect_rtt_sample i.rtt_est.latest).in_css = true := by
        rw [in_css_collect]; exact hcss
      simp only [List.length_cons] at hbound
      rcases hw : h.current.window_end with - | we
      · have hclo := closureStep_of_no_window (h1w.trans hw) i.largest_acked
        rw [hclo] at hcall
        rw [hcall] at hrest
        obtain ⟨hf, bs, hrun, hfc, hfb, hfw, hfcnt, hbs⟩ :=
          ih (h.collect_rtt_sample i.rtt_est.latest) h1css hrest
            (by rw [h1c]; omega)
        refine ⟨hf, false :: bs, ?_, hfc, by rw [hfb, collect_base], ?_, ?_, ?_⟩
        · simp only [runEvents, HyStart.step]
          rw [hcall]
          dsimp only
          rw [hrun]
        · simp only [cssTracePlan]
          rw [hfw, h1w, hw, h1c]
        · simp only [cssTracePlan]
          rw [hfcnt, h1w, hw, h1c]
        · simp only [cssTracePlan]
          rw [hbs, h1w, hw, h1c]
      · by_cases hle : we ≤ i.largest_acked
        · have hclo := closureStep_of_close_css (h1w.trans hw) hle h1css
          rw [hclo] at hcall
          rw [hcall] at hrest
          have hmod : ((h.collect_rtt_sample i.rtt_est.latest).current.css_round_count + 1)
              % 2 ^ 64 = h.current.css_round_count + 1 := by
            rw [h1c]
            exact Nat.mod_eq_of_lt (by omega)
          set h4 : HyStart :=
            { h.collect_rtt_sample i.rtt_est.latest with current :=
              { (h.collect_rtt_sample i.rtt_est.latest).current with
                window_end := none
                css_round_count :=
                  ((h.collect_rtt_sample i.rtt_est.latest).current.css_round_count + 1)
                    % 2 ^ 64 } } with hh4
          have h4css : h4.in_css = true := by
            simp [hh4, HyStart.in_css, collect_base, hb]
          have h4cnt : h4.current.css_round_count = h.current.css_round_count + 1 := hmod
          have h4w : h4.current.window_end = none := rfl
          have h4b : h4.current.css_baseline_min_rtt = h.current.css_baseline_min_rtt :=
            collect_base h i.rtt_est.latest
          obtain ⟨hf, bs, hrun, hfc, hfb, hfw, hfcnt, hbs⟩ :=
            ih h4 h4css hrest (by rw [h4cnt]; omega)
          refine ⟨hf, decide (HyStart.CSS_ROUNDS ≤ h.current.css_round_count + 1) :: bs,
            ?_, hfc, by rw [hfb, h4b], ?_, ?_, ?_⟩
          · simp only [runEvents, HyStart.step]
            rw [hcall]
            dsimp only
            rw [hrun, hmod]
          · simp only [cssTracePlan]
            rw [if_pos hle, hfw, h4w, h4cnt]
          · simp only [cssTracePlan]
            rw [if_pos hle, hfcnt, h4w, h4cnt]
          · simp only [cssTracePlan]
            rw [if_pos hle, hbs, h4w, h4cnt]
        · have hclo := closureStep_of_no_close (h1w.trans hw) hle
          rw [hclo] at hcall
          rw [hcall] at hrest
          obtain ⟨hf, bs, hrun, hfc, hfb, hfw, hfcnt, hbs⟩ :=
            ih (h.collect_rtt_sample i.rtt_est.latest) h1css hrest
              (by rw [h1c]; omega)
          refine ⟨hf, false :: bs, ?_, hfc, by rw [hfb, collect_base], ?_, ?_, ?_⟩
          · simp only [runEvents, HyStart.step]
            rw [hcall]
            dsimp only
            rw [hrun]
          · simp only [cssTracePlan]
            rw [if_neg hle, hfw, h1w, hw, h1c]
          · simp only [cssTracePlan]
            rw [if_neg hle, hfcnt, h1w, hw, h1c]
          · simp only [cssTracePlan]
            rw [if_neg hle, hbs, h1w, hw, h1c]

/-! ### Further small lemmas -/

theorem durAdd_some {a b t : Nat} (hd : durAdd a b = some t) :
    t = a + b ∧ a + b ≤ DURATION_MAX := by
  unfold durAdd at hd
  split at hd
  · exact ⟨(Option.some_inj.mp hd).symm, by assumption⟩
  · exact absurd hd (by simp)

theorem durAdd_of_le {a b : Nat} (hle : a + b ≤ DURATION_MAX) :
    durAdd a b = some (a + b) := by
  unfold durAdd
  rw [if_pos hle]

theorem rtt_thresh_le (last : Nat) : rtt_thresh last ≤ HyStart.MAX_RTT_THRESH := by
  unfold rtt_thresh
  exact max_le (by decide) (min_le_right _ _)

theorem entryStep_eval {h : HyStart} {t : Nat} (hg : h.entryGuard = true)
    (hd : durAdd h.current.last_round_min_rtt (rtt_thresh h.current.last_round_min_rtt) =
      some t) :
    h.entryStep =
      if t ≤ h.current.current_round_min_rtt then
        some { h with current :=
          { h.current with css_baseline_min_rtt := h.current.current_round_min_rtt } }
      else some h := by
  unfold HyStart.entryStep
  rw [hg, if_pos rfl, hd]

theorem entryStep_of_add_none {h : HyStart} (hg : h.entryGuard = true)
    (hd : durAdd h.current.last_round_min_rtt (rtt_thresh h.current.last_round_min_rtt) =
      none) :
    h.entryStep = none := by
  unfold HyStart.entryStep
  rw [hg, if_pos rfl, hd]

theorem not_in_css_base {h : HyStart} (hnc : h.in_css = false) :
    h.current.css_baseline_min_rtt = DURATION_MAX := by
  simpa [HyStart.in_css] using hnc

/-! ### Concrete engines, inputs and traces used by witnesses and
counterexamples -/

/-- A concrete classic-slow-start fallback used for concrete evaluations. -/
def classic0 : ClassicSS := fun _ => { cwnd_increase := 0, exit_slow_start := false }

/-- Ack-batch input with the sentinel threshold, 1200-byte datagrams, 1200
newly acked bytes, RTT sample `rtt` and largest acked packet `la`. -/
def ackIn (rtt la : Nat) : AckInput :=
  { curr_cwnd := 0
    ssthresh := USIZE_MAX
    new_acked := 1200
    rtt_est := { latest := rtt }
    max_datagram_size := 1200
    largest_acked := la }

/-- An engine with an open round ending at packet 3. -/
def W8 : HyStart :=
  { limit := 8
    current :=
    { last_round_min_rtt := 1
      current_round_min_rtt := 2
      rtt_sample_count := 3
      window_end := some 3
      css_baseline_min_rtt := DURATION_MAX
      css_round_count := 0 } }

/-- Fallback input: threshold 5 (not the sentinel), window 5. -/
def I10 : AckInput :=
  { curr_cwnd := 5, ssthresh := 5, new_acked := 7
    rtt_est := { latest := 1000 }, max_datagram_size := 9, largest_acked := 2 }

/-- Fallback input: threshold 9 (not the sentinel), window 4. -/
def I3 : AckInput :=
  { curr_cwnd := 4, ssthresh := 9, new_acked := 50
    rtt_est := { latest := 2000 }, max_datagram_size := 11, largest_acked := 3 }

/-- A freshly constructed non-paced engine, written out field by field. -/
def HF10 : HyStart :=
  { limit := 8
    current :=
    { last_round_min_rtt := DURATION_MAX
      current_round_min_rtt := DURATION_MAX
      rtt_sample_count := 0
      window_end := none
      css_baseline_min_rtt := DURATION_MAX
      css_round_count := 0 } }

/-! ### C8 -/

/-- C8: while a round is open (`window_end` is `Some`), `on_packet_sent`
is a complete no-op: the whole engine state — `window_end`,
`last_round_min_rtt`, `current_round_min_rtt`, `rtt_sample_count`,
`css_baseline_min_rtt`, `css_round_count` and the limit — is unchanged. -/
theorem c8_round_isolation {h : HyStart} {w : Nat}
    (hw : h.current.window_end = some w) (pn : Nat) :
    h.on_packet_sent pn = h :=
  sent_of_open hw pn

/-- Witness for C8: a concrete engine with an open round is untouched by a
send notification. -/
theorem c8_round_isolation_witness :
    W8.current.window_end = some 3 ∧ W8.on_packet_sent 99 = W8 :=
  ⟨rfl, c8_round_isolation rfl 99⟩

/-! ### C10 -/

/-- C10: a call of `on_packets_acked` with a non-sentinel threshold (the
classic-slow-start fallback path) leaves the engine state — all six
round-tracking fields and the limit — completely unchanged: no sample is
collected, no phase transition happens, no round closes. -/
theorem c10_fallback_frame {classic : ClassicSS} {h hf : HyStart} {i : AckInput}
    {res : SlowStartResult} (hs : i.ssthresh ≠ USIZE_MAX)
    (hc : h.on_packets_acked classic i = some (hf, res)) : hf = h := by
  unfold HyStart.on_packets_acked at hc
  split at hc
  · exact absurd hc (by simp)
  · exact (congrArg Prod.fst (Option.some_inj.mp hc)).symm

/-- Witness for C10: a concrete fallback call returns the very state it was
given. -/
theorem c10_fallback_frame_witness :
    I10.ssthresh ≠ USIZE_MAX ∧ HF10 = HyStart.new false := by
  have hcall : (HyStart.new false).on_packets_acked classic0 I10 =
      some (HF10, { cwnd_increase := 0, exit_slow_start := false }) := by decide
  exact ⟨by decide, c10_fallback_frame (by decide) hcall⟩

/-! ### C3 -/

/-- C3: a call of `on_packets_acked` with a non-sentinel threshold returns
exactly what the classic slow-start algorithm returns on the same argument
bundle, whatever the internal HyStart state is. -/
theorem c3_fallback_purity {classic : ClassicSS} {h hf : HyStart} {i : AckInput}
    {res : SlowStartResult} (hs : i.ssthresh ≠ USIZE_MAX)
    (hc : h.on_packets_acked classic i = some (hf, res)) : res = classic i := by
  unfold HyStart.on_packets_acked at hc
  split at hc
  · exact absurd hc (by simp)
  · exact (congrArg Prod.snd (Option.some_inj.mp hc)).symm

/-- Witness for C3: a concrete fallback call returns the classic result. -/
theorem c3_fallback_purity_witness :
    I3.ssthresh ≠ USIZE_MAX ∧
      ({ cwnd_increase := 0, exit_slow_start := false } : SlowStartResult) =
        classic0 I3 := by
  have hcall : (HyStart.new false).on_packets_acked classic0 I3 =
      some (HyStart.new false, { cwnd_increase := 0, exit_slow_start := false }) := by
    decide
  exact ⟨by decide, c3_fallback_purity (by decide) hcall⟩

/-! ### C2 -/

/-- C2: on the HyStart path (sentinel threshold), the returned
`cwnd_increase` is `min(limit * max_datagram_size, new_acked)` with a
saturating multiplication, divided by `CSS_GROWTH_DIVISOR = 4` (integer
floor division) exactly when the engine is in CSS after this call's phase
transitions (equivalently, in the returned state — the end-of-round check
never changes the CSS baseline); hence it never exceeds `new_acked`, and
the saturating product never exceeds `usize::MAX` even for the unbounded
(paced) limit. -/
theorem c2_growth_cap {classic : ClassicSS} {h hf : HyStart} {i : AckInput}
    {res : SlowStartResult} (hs : i.ssthresh = USIZE_MAX)
    (hc : h.on_packets_acked classic i = some (hf, res)) :
    res.cwnd_increase =
      (if hf.in_css then
        min (saturating_mul h.limit i.max_datagram_size) i.new_acked /
          HyStart.CSS_GROWTH_DIVISOR
      else min (saturating_mul h.limit i.max_datagram_size) i.new_acked) ∧
    res.cwnd_increase ≤ i.new_acked ∧
    saturating_mul h.limit i.max_datagram_size ≤ USIZE_MAX := by
  by_cases ha : i.ssthresh < i.curr_cwnd
  · rw [acked_assert ha] at hc
    exact absurd hc (by simp)
  · rw [acked_hystart ha hs] at hc
    obtain ⟨h3, hmid, rfl, rfl⟩ := hystartPath_some_elim hc
    have hlim : h3.limit = h.limit := by
      rw [(entryStep_preserves hmid).1, exitStep_limit, collect_limit]
    refine ⟨?_, ?_, min_le_right _ _⟩
    · dsimp only
      rw [closureStep_in_css]
      simp only [HyStart.calc_cwnd_increase]
      rw [hlim]
    · dsimp only
      simp only [HyStart.calc_cwnd_increase]
      split
      · exact le_trans (Nat.div_le_self _ _) (min_le_right _ _)
      · exact min_le_right _ _

/-- HyStart-path input for the C2 witness: paced (unbounded) limit. -/
def I2 : AckInput :=
  { curr_cwnd := 0, ssthresh := USIZE_MAX, new_acked := 5000
    rtt_est := { latest := 1000 }, max_datagram_size := 1200, largest_acked := 0 }

/-- State after the C2 witness call on a fresh paced engine. -/
def HF2 : HyStart :=
  { limit := USIZE_MAX
    current :=
    { last_round_min_rtt := DURATION_MAX
      current_round_min_rtt := 1000
      rtt_sample_count := 1
      window_end := none
      css_baseline_min_rtt := DURATION_MAX
      css_round_count := 0 } }

/-- Witness for C2: a paced engine (limit `usize::MAX`) acknowledging 5000
bytes grows by exactly 5000 — the saturating product caps at `usize::MAX`
instead of overflowing. -/
theorem c2_growth_cap_witness :
    I2.ssthresh = USIZE_MAX ∧
      (({ cwnd_increase := 5000, exit_slow_start := false } : SlowStartResult).cwnd_increase =
        (if HF2.in_css then
          min (saturating_mul (HyStart.new true).limit I2.max_datagram_size) I2.new_acked /
            HyStart.CSS_GROWTH_DIVISOR
        else min (saturating_mul (HyStart.new true).limit I2.max_datagram_size) I2.new_acked) ∧
      ({ cwnd_increase := 5000, exit_slow_start := false } : SlowStartResult).cwnd_increase ≤
        I2.new_acked ∧
      saturating_mul (HyStart.new true).limit I2.max_datagram_size ≤ USIZE_MAX) := by
  have hcall : (HyStart.new true).on_packets_acked classic0 I2 =
      some (HF2, { cwnd_increase := 5000, exit_slow_start := false }) := by decide
  exact ⟨rfl, c2_growth_cap rfl hcall⟩

/-! ### C1 -/

/-- C1: on the HyStart path (sentinel threshold), when after sample
collection the engine is not in CSS, at least `N_RTT_SAMPLE = 8` samples
have been collected, and both the (post-collection) current round minimum
and the previous round minimum are not the infinite sentinel, the call
enters CSS — i.e. sets `css_baseline_min_rtt` to the post-collection
current round minimum — if and only if that minimum is at least
`last_round_min_rtt + rtt_thresh`, where
`rtt_thresh = max(4ms, min(last_round_min_rtt / 8, 16ms))`. -/
theorem c1_enter_css {classic : ClassicSS} {h hf : HyStart} {i : AckInput}
    {res : SlowStartResult} (hs : i.ssthresh = USIZE_MAX)
    (hnc : h.in_css = false)
    (hcnt : HyStart.N_RTT_SAMPLE ≤
      (h.collect_rtt_sample i.rtt_est.latest).current.rtt_sample_count)
    (hcur : (h.collect_rtt_sample i.rtt_est.latest).current.current_round_min_rtt ≠
      DURATION_MAX)
    (hlast : h.current.last_round_min_rtt ≠ DURATION_MAX)
    (hc : h.on_packets_acked classic i = some (hf, res)) :
    hf.current.css_baseline_min_rtt =
        (h.collect_rtt_sample i.rtt_est.latest).current.current_round_min_rtt ↔
      h.current.last_round_min_rtt + rtt_thresh h.current.last_round_min_rtt ≤
        (h.collect_rtt_sample i.rtt_est.latest).current.current_round_min_rtt := by
  by_cases ha : i.ssthresh < i.curr_cwnd
  · rw [acked_assert ha] at hc
    exact absurd hc (by simp)
  · rw [acked_hystart ha hs] at hc
    obtain ⟨h3, hmid, rfl, -⟩ := hystartPath_some_elim hc
    have h1nc : (h.collect_rtt_sample i.rtt_est.latest).in_css = false := hnc
    rw [exitStep_of_not_fires (exitFires_of_not_css h1nc)] at hmid
    have hen : (h.collect_rtt_sample i.rtt_est.latest).enough_samples = true :=
      decide_eq_true hcnt
    have hlast1 : (h.collect_rtt_sample i.rtt_est.latest).current.last_round_min_rtt ≠
        DURATION_MAX := hlast
    have hg : (h.collect_rtt_sample i.rtt_est.latest).entryGuard = true := by
      simp [HyStart.entryGuard, h1nc, hen, hcur, hlast1]
    cases hd : durAdd (h.collect_rtt_sample i.rtt_est.latest).current.last_round_min_rtt
        (rtt_thresh (h.collect_rtt_sample i.rtt_est.latest).current.last_round_min_rtt) with
    | none =>
      rw [entryStep_of_add_none hg hd] at hmid
      exact absurd hmid (by simp)
    | some t =>
      rw [entryStep_eval hg hd] at hmid
      obtain ⟨rfl, -⟩ := durAdd_some hd
      by_cases ht : (h.collect_rtt_sample i.rtt_est.latest).current.last_round_min_rtt +
          rtt_thresh (h.collect_rtt_sample i.rtt_est.latest).current.last_round_min_rtt ≤
          (h.collect_rtt_sample i.rtt_est.latest).current.current_round_min_rtt
      · rw [if_pos ht] at hmid
        have h3eq : h3 = { h.collect_rtt_sample i.rtt_est.latest with current :=
            { (h.collect_rtt_sample i.rtt_est.latest).current with css_baseline_min_rtt :=
              (h.collect_rtt_sample i.rtt_est.latest).current.current_round_min_rtt } } :=
          (Option.some_inj.mp hmid).symm
        subst h3eq
        rw [closureStep_base]
        exact ⟨fun _ => ht, fun _ => rfl⟩
      · rw [if_neg ht] at hmid
        have h3eq : h3 = h.collect_rtt_sample i.rtt_est.latest :=
          (Option.some_inj.mp hmid).symm
        subst h3eq
        rw [closureStep_base]
        constructor
        · intro hEq
          have hDM : (h.collect_rtt_sample i.rtt_est.latest).current.current_round_min_rtt =
              DURATION_MAX := by
            rw [← hEq, collect_base]
            exact not_in_css_base hnc
          exact absurd hDM hcur
        · intro hth
          exact absurd hth ht

/-- Engine one sample short of the CSS-entry condition: previous round
minimum 100ms, seven 200ms samples so far, round open until packet 50. -/
def H1W : HyStart :=
  { limit := 8
    current :=
    { last_round_min_rtt := 100000000
      current_round_min_rtt := 200000000
      rtt_sample_count := 7
      window_end := some 50
      css_baseline_min_rtt := DURATION_MAX
      css_round_count := 0 } }

/-- Eighth 200ms sample of the round, not covering the round boundary. -/
def I1 : AckInput :=
  { curr_cwnd := 0, ssthresh := USIZE_MAX, new_acked := 777
    rtt_est := { latest := 200000000 }, max_datagram_size := 55, largest_acked := 10 }

/-- State after the C1 witness call: CSS entered with baseline 200ms. -/
def HF1 : HyStart :=
  { limit := 8
    current :=
    { last_round_min_rtt := 100000000
      current_round_min_rtt := 200000000
      rtt_sample_count := 8
      window_end := some 50
      css_baseline_min_rtt := 200000000
      css_round_count := 0 } }

/-- Witness for C1: 200ms ≥ 100ms + 12.5ms, so the concrete call enters
CSS, and the theorem's equivalence holds at it. -/
theorem c1_enter_css_witness :
    I1.ssthresh = USIZE_MAX ∧ H1W.in_css = false ∧
      (HF1.current.css_baseline_min_rtt =
          (H1W.collect_rtt_sample I1.rtt_est.latest).current.current_round_min_rtt ↔
        H1W.current.last_round_min_rtt + rtt_thresh H1W.current.last_round_min_rtt ≤
          (H1W.collect_rtt_sample I1.rtt_est.latest).current.current_round_min_rtt) := by
  have hcall : H1W.on_packets_acked classic0 I1 =
      some (HF1, { cwnd_increase := 110, exit_slow_start := false }) := by decide
  exact ⟨rfl, rfl, c1_enter_css rfl rfl (by decide) (by decide) (by decide) hcall⟩

/-! ### C7 -/

/-- Fallback input used by the C7 counterexample: threshold 5 (not the
sentinel) with a 1ms RTT sample. -/
def I7 : AckInput :=
  { curr_cwnd := 5, ssthresh := 5, new_acked := 100
    rtt_est := { latest := 1000000 }, max_datagram_size := 100, largest_acked := 0 }

/-- Counterexample for C7 as stated ("for every call ... and every starting
state"): on the classic-fallback path (threshold ≠ sentinel) no RTT sample
is collected, so `current_round_min_rtt` after the call — here still the
infinite sentinel of a fresh (trivially reachable) engine — exceeds the
supplied 1ms RTT sample. -/
theorem c7_counterexample :
    Reaches classic0 (HyStart.new false) ∧
    (HyStart.new false).on_packets_acked classic0 I7 =
      some (HyStart.new false, { cwnd_increase := 0, exit_slow_start := false }) ∧
    ¬ ((HyStart.new false).current.current_round_min_rtt ≤ I7.rtt_est.latest) :=
  ⟨⟨false, [], [], rfl⟩, by decide, by decide⟩

/-- C7 amended: after any completed `on_packets_acked` call the value of
`current_round_min_rtt` is at most its value before the call, and — on the
HyStart path, i.e. when the threshold is the sentinel, so that the RTT
sample is actually collected — at most the supplied RTT sample.  (On the
classic-fallback path the field is unchanged and need not be bounded by the
sample.) -/
theorem c7_sample_monotonic {classic : ClassicSS} {h hf : HyStart} {i : AckInput}
    {res : SlowStartResult}
    (hc : h.on_packets_acked classic i = some (hf, res)) :
    hf.current.current_round_min_rtt ≤ h.current.current_round_min_rtt ∧
    (i.ssthresh = USIZE_MAX →
      hf.current.current_round_min_rtt ≤ i.rtt_est.latest) := by
  unfold HyStart.on_packets_acked at hc
  split at hc
  · exact absurd hc (by simp)
  · split at hc
    · rename_i hne
      have hfeq : h = hf := congrArg Prod.fst (Option.some_inj.mp hc)
      subst hfeq
      exact ⟨le_refl _, fun hss => absurd hss hne⟩
    · rename_i hne
      obtain ⟨h3, hmid, rfl, -⟩ := hystartPath_some_elim hc
      have hcur : (h3.closureStep i.largest_acked).1.current.current_round_min_rtt =
          min h.current.current_round_min_rtt i.rtt_est.latest := by
        rw [closureStep_current, (entryStep_preserves hmid).2.2.1, exitStep_current,
          collect_current]
      rw [hcur]
      exact ⟨min_le_left _ _, fun _ => min_le_right _ _⟩

/-- HyStart-path input for the C7 witness: a 5000ns RTT sample. -/
def I7W : AckInput :=
  { curr_cwnd := 0, ssthresh := USIZE_MAX, new_acked := 10
    rtt_est := { latest := 5000 }, max_datagram_size := 10, largest_acked := 0 }

/-- State after the C7 witness call on a fresh non-paced engine. -/
def HF7 : HyStart :=
  { limit := 8
    current :=
    { last_round_min_rtt := DURATION_MAX
      current_round_min_rtt := 5000
      rtt_sample_count := 1
      window_end := none
      css_baseline_min_rtt := DURATION_MAX
      css_round_count := 0 } }

/-- Witness for the amended C7 at a concrete HyStart-path call. -/
theorem c7_sample_monotonic_witness :
    HF7.current.current_round_min_rtt ≤
        (HyStart.new false).current.current_round_min_rtt ∧
      (I7W.ssthresh = USIZE_MAX →
        HF7.current.current_round_min_rtt ≤ I7W.rtt_est.latest) := by
  have hcall : (HyStart.new false).on_packets_acked classic0 I7W =
      some (HF7, { cwnd_increase := 10, exit_slow_start := false }) := by decide
  exact c7_sample_monotonic hcall

/-! ### C5 -/

/-- Event trace reaching `H5`: one 100ms round, a CSS-entering 200ms round
(baseline 200ms), a short 20ms round (rotating 20ms into the previous-round
minimum), then seven 50ms samples of an open round. -/
def preC5 : List Event :=
  [.sent 10, .acked (ackIn 100000000 10), .sent 20,
   .acked (ackIn 200000000 11), .acked (ackIn 200000000 12), .acked (ackIn 200000000 13),
   .acked (ackIn 200000000 14), .acked (ackIn 200000000 15), .acked (ackIn 200000000 16),
   .acked (ackIn 200000000 17), .acked (ackIn 200000000 20),
   .sent 30, .acked (ackIn 20000000 30),
   .sent 40,
   .acked (ackIn 50000000 31), .acked (ackIn 50000000 32), .acked (ackIn 50000000 33),
   .acked (ackIn 50000000 34), .acked (ackIn 50000000 35), .acked (ackIn 50000000 36),
   .acked (ackIn 50000000 37)]

/-- The reachable state at the end of `preC5`: in CSS with baseline 200ms,
previous-round minimum 20ms, seven 50ms samples in the open round. -/
def H5 : HyStart :=
  { limit := 8
    current :=
    { last_round_min_rtt := 20000000
      current_round_min_rtt := 50000000
      rtt_sample_count := 7
      window_end := some 40
      css_baseline_min_rtt := 200000000
      css_round_count := 2 } }

/-- The eighth 50ms sample of the open round (not covering the boundary). -/
def I5 : AckInput := ackIn 50000000 38

/-- State after calling `on_packets_acked H5 I5`: the CSS-exit branch fired
(50ms < 200ms baseline with 8 samples) but the CSS-entry branch immediately
re-entered (50ms ≥ 20ms + 4ms), so the final baseline is 50ms, not the
infinite sentinel. -/
def HF5 : HyStart :=
  { limit := 8
    current :=
    { last_round_min_rtt := 20000000
      current_round_min_rtt := 50000000
      rtt_sample_count := 8
      window_end := some 40
      css_baseline_min_rtt := 50000000
      css_round_count := 0 } }

/-- Counterexample for C5 as stated: a reachable state satisfying all of
C5's hypotheses (HyStart path, in CSS after collection, 8 samples,
post-collection current round minimum below the CSS baseline) whose call
does NOT leave `css_baseline_min_rtt` at the infinite sentinel: the same
call immediately re-enters CSS with the new, lower baseline. -/
theorem c5_counterexample :
    Reaches classic0 H5 ∧
    I5.ssthresh = USIZE_MAX ∧
    (H5.collect_rtt_sample I5.rtt_est.latest).in_css = true ∧
    HyStart.N_RTT_SAMPLE ≤
      (H5.collect_rtt_sample I5.rtt_est.latest).current.rtt_sample_count ∧
    (H5.collect_rtt_sample I5.rtt_est.latest).current.current_round_min_rtt <
      (H5.collect_rtt_sample I5.rtt_est.latest).current.css_baseline_min_rtt ∧
    H5.on_packets_acked classic0 I5 =
      some (HF5, { cwnd_increase := 300, exit_slow_start := false }) ∧
    HF5.current.css_baseline_min_rtt ≠ DURATION_MAX :=
  ⟨⟨false, preC5, List.replicate 21 false, by decide⟩,
   rfl, by decide, by decide, by decide, by decide, by decide⟩

/-- C5 amended: under C5's hypotheses — HyStart path, in CSS after sample
collection, at least 8 samples, post-collection current round minimum below
the CSS baseline — and provided the CSS-entry condition does not also hold
on the post-exit state (previous-round minimum infinite, or the current
round minimum below `last_round_min_rtt + rtt_thresh`), the call resets
`css_baseline_min_rtt` to the infinite sentinel and `css_round_count` to 0.
(The counterexample shows the extra proviso is necessary: the same call may
otherwise immediately re-enter CSS.) -/
theorem c5_css_exit {classic : ClassicSS} {h hf : HyStart} {i : AckInput}
    {res : SlowStartResult} (hs : i.ssthresh = USIZE_MAX)
    (hcss : (h.collect_rtt_sample i.rtt_est.latest).in_css = true)
    (hcnt : HyStart.N_RTT_SAMPLE ≤
      (h.collect_rtt_sample i.rtt_est.latest).current.rtt_sample_count)
    (hlt : (h.collect_rtt_sample i.rtt_est.latest).current.current_round_min_rtt <
      (h.collect_rtt_sample i.rtt_est.latest).current.css_baseline_min_rtt)
    (hno : ¬ (h.current.last_round_min_rtt ≠ DURATION_MAX ∧
      h.current.last_round_min_rtt + rtt_thresh h.current.last_round_min_rtt ≤
        (h.collect_rtt_sample i.rtt_est.latest).current.current_round_min_rtt))
    (hc : h.on_packets_acked classic i = some (hf, res)) :
    hf.current.css_baseline_min_rtt = DURATION_MAX ∧
      hf.current.css_round_count = 0 := by
  by_cases ha : i.ssthresh < i.curr_cwnd
  · rw [acked_assert ha] at hc
    exact absurd hc (by simp)
  · rw [acked_hystart ha hs] at hc
    obtain ⟨h3, hmid, rfl, -⟩ := hystartPath_some_elim hc
    have hx : (h.collect_rtt_sample i.rtt_est.latest).exitFires = true := by
      simp [HyStart.exitFires, HyStart.enough_samples, hcss, hcnt, hlt]
    rw [exitStep_of_fires hx] at hmid
    rcases entryStep_some_cases hmid with h3eq | ⟨hef, h3eq⟩
    · subst h3eq
      constructor
      · rw [closureStep_base]
      · have hEnc : HyStart.in_css
            { h.collect_rtt_sample i.rtt_est.latest with current :=
              { (h.collect_rtt_sample i.rtt_est.latest).current with
                css_baseline_min_rtt := DURATION_MAX, css_round_count := 0 } } = false := by
          simp [HyStart.in_css]
        rw [closureStep_css_count_of_not_css hEnc]
    · exfalso
      obtain ⟨hg, t, hd, htle⟩ := entryFires_elim hef
      obtain ⟨rfl, -⟩ := durAdd_some hd
      obtain ⟨-, -, -, hlastE⟩ := entryGuard_elim hg
      exact hno ⟨hlastE, htle⟩

/-- Engine in CSS (baseline 120ms) with previous-round minimum 100ms and
seven 105ms samples: the eighth sample exits CSS, and 105ms < 100ms +
12.5ms keeps the entry condition false. -/
def H5W : HyStart :=
  { limit := 8
    current :=
    { last_round_min_rtt := 100000000
      current_round_min_rtt := 105000000
      rtt_sample_count := 7
      window_end := none
      css_baseline_min_rtt := 120000000
      css_round_count := 3 } }

/-- Eighth 105ms sample for the C5 witness call. -/
def I5W : AckInput := ackIn 105000000 0

/-- State after the C5 witness call: CSS exited, counters reset. -/
def HF5W : HyStart :=
  { limit := 8
    current :=
    { last_round_min_rtt := 100000000
      current_round_min_rtt := 105000000
      rtt_sample_count := 8
      window_end := none
      css_baseline_min_rtt := DURATION_MAX
      css_round_count := 0 } }

/-- Witness for the amended C5 at a concrete exit-without-re-entry call. -/
theorem c5_css_exit_witness :
    (H5W.collect_rtt_sample I5W.rtt_est.latest).in_css = true ∧
      (H5W.collect_rtt_sample I5W.rtt_est.latest).current.current_round_min_rtt <
        (H5W.collect_rtt_sample I5W.rtt_est.latest).current.css_baseline_min_rtt ∧
      HF5W.current.css_baseline_min_rtt = DURATION_MAX ∧
      HF5W.current.css_round_count = 0 := by
  have hcall : H5W.on_packets_acked classic0 I5W =
      some (HF5W, { cwnd_increase := 1200, exit_slow_start := false }) := by decide
  exact ⟨by decide, by decide,
    c5_css_exit rfl (by decide) (by decide) (by decide) (by decide) hcall⟩

/-! ### C6 -/

/-- Counterexample for C6 as stated: at the reachable state `H5`, the call
`on_packets_acked H5 I5` triggers BOTH phase transitions — the CSS-exit
guard holds on the post-collection state and the CSS-entry condition holds
on the post-exit state — so the baseline ends neither unchanged (200ms) nor
at the sentinel, but at the re-entered 50ms. -/
theorem c6_counterexample :
    Reaches classic0 H5 ∧
    I5.ssthresh = USIZE_MAX ∧
    (H5.collect_rtt_sample I5.rtt_est.latest).exitFires = true ∧
    ((H5.collect_rtt_sample I5.rtt_est.latest).exitStep).entryFires = true ∧
    (H5.on_packets_acked classic0 I5).map
        (fun p => p.1.current.css_baseline_min_rtt) = some 50000000 :=
  ⟨⟨false, preC5, List.replicate 21 false, by decide⟩,
   rfl, by decide, by decide, by decide⟩

/-- C6 amended: within one call the two phase transitions are gated on the
CSS status at their respective evaluation points — the CSS-exit transition
fires only when the post-collection state is in CSS, the CSS-entry
transition fires only when the post-exit state is not in CSS — and the only
way both fire in one call is exit first, immediately followed by re-entry:
if the post-collection state is in CSS and the entry transition fires, the
exit transition fired in the same call.  (The counterexample shows that
both can indeed fire, so unconditional mutual exclusion fails.) -/
theorem c6_transition_order (h : HyStart) (rtt : Nat) :
    ((h.collect_rtt_sample rtt).exitFires = true →
      (h.collect_rtt_sample rtt).in_css = true) ∧
    (((h.collect_rtt_sample rtt).exitStep).entryFires = true →
      ((h.collect_rtt_sample rtt).exitStep).in_css = false) ∧
    ((h.collect_rtt_sample rtt).in_css = true →
      ((h.collect_rtt_sample rtt).exitStep).entryFires = true →
      (h.collect_rtt_sample rtt).exitFires = true) := by
  refine ⟨?_, ?_, ?_⟩
  · intro hx
    unfold HyStart.exitFires at hx
    exact (Bool.and_eq_true_iff.mp (Bool.and_eq_true_iff.mp hx).1).1
  · intro he
    obtain ⟨hnc, -, -, -⟩ :=
      entryGuard_elim (Bool.and_eq_true_iff.mp he).1
    exact hnc
  · intro hcss he
    by_contra hx
    have hxf : (h.collect_rtt_sample rtt).exitFires = false := Bool.not_eq_true _ ▸ hx
    rw [exitStep_of_not_fires hxf] at he
    obtain ⟨hnc, -, -, -⟩ := entryGuard_elim (Bool.and_eq_true_iff.mp he).1
    rw [hcss] at hnc
    simp at hnc

/-- Witness for the amended C6, exercising its third part at the concrete
exit-then-re-enter state: since the post-collection state is in CSS and the
entry transition fires, the exit transition must have fired first. -/
theorem c6_transition_order_witness :
    (H5.collect_rtt_sample 50000000).in_css = true ∧
      ((H5.collect_rtt_sample 50000000).exitStep).entryFires = true ∧
      (H5.collect_rtt_sample 50000000).exitFires = true :=
  ⟨by decide, by decide,
   (c6_transition_order H5 50000000).2.2 (by decide) (by decide)⟩

/-! ### C9 -/

/-- Event trace reaching `H9`: a one-sample round of near-maximal RTT
rotates `Duration::MAX - 1ns` into the previous-round minimum, then seven
more near-maximal samples fill the next round. -/
def preC9 : List Event :=
  [.sent 10, .acked (ackIn (DURATION_MAX - 1) 10), .sent 20,
   .acked (ackIn (DURATION_MAX - 1) 11), .acked (ackIn (DURATION_MAX - 1) 12),
   .acked (ackIn (DURATION_MAX - 1) 13), .acked (ackIn (DURATION_MAX - 1) 14),
   .acked (ackIn (DURATION_MAX - 1) 15), .acked (ackIn (DURATION_MAX - 1) 16),
   .acked (ackIn (DURATION_MAX - 1) 17)]

/-- The reachable state at the end of `preC9`: previous-round minimum
`Duration::MAX - 1ns`, seven samples in the open round, not in CSS. -/
def H9 : HyStart :=
  { limit := 8
    current :=
    { last_round_min_rtt := DURATION_MAX - 1
      current_round_min_rtt := DURATION_MAX - 1
      rtt_sample_count := 7
      window_end := some 20
      css_baseline_min_rtt := DURATION_MAX
      css_round_count := 0 } }

/-- Eighth near-maximal sample: triggers the CSS-entry check, whose
`Duration` addition `last_round_min_rtt + rtt_thresh` overflows. -/
def I9 : AckInput := ackIn (DURATION_MAX - 1) 18

/-- Counterexample for C9 as stated: at the reachable state `H9` a call
respecting the asserted precondition (`threshold ≥ curr_cwnd`) still
panics — the CSS-entry branch computes `last_round_min_rtt + rtt_thresh`
on a `Duration` within 16ms of `Duration::MAX`, which overflows — so "no
arithmetic in the call panics" fails. -/
theorem c9_counterexample :
    Reaches classic0 H9 ∧
    I9.curr_cwnd ≤ I9.ssthresh ∧
    H9.on_packets_acked classic0 I9 = none :=
  ⟨⟨false, preC9, List.replicate 10 false, by decide⟩, by decide, by decide⟩

/-- C9 amended: a call with `threshold < curr_cwnd` fails the assertion
(modelled as the panic outcome `none`) and is never silently corrected;
under the precondition `threshold ≥ curr_cwnd` the assertion never fires
and the call completes — i.e. no arithmetic panics — provided additionally
that `last_round_min_rtt` is at least `MAX_RTT_THRESH = 16ms` below
`Duration::MAX`, which bounds the only other panicking operation, the
`Duration` addition in the CSS-entry check.  (The counterexample shows the
extra bound is necessary.)  The `usize` arithmetic never panics: the growth
multiplication saturates. -/
theorem c9_assert_and_no_panic (classic : ClassicSS) (h : HyStart) (i : AckInput) :
    (i.ssthresh < i.curr_cwnd → h.on_packets_acked classic i = none) ∧
    (i.curr_cwnd ≤ i.ssthresh →
      h.current.last_round_min_rtt + HyStart.MAX_RTT_THRESH ≤ DURATION_MAX →
      h.on_packets_acked classic i ≠ none) := by
  constructor
  · intro ha
    exact acked_assert ha
  · intro hcw hbound
    have ha : ¬ i.ssthresh < i.curr_cwnd := Nat.not_lt.mpr hcw
    by_cases hs : i.ssthresh = USIZE_MAX
    · rw [acked_hystart ha hs]
      have hlast : ((h.collect_rtt_sample i.rtt_est.latest).exitStep).current.last_round_min_rtt
          = h.current.last_round_min_rtt := by
        rw [exitStep_last, collect_last]
      have hadd : ((h.collect_rtt_sample i.rtt_est.latest).exitStep).current.last_round_min_rtt +
          rtt_thresh ((h.collect_rtt_sample i.rtt_est.latest).exitStep).current.last_round_min_rtt
          ≤ DURATION_MAX := by
        rw [hlast]
        exact le_trans (Nat.add_le_add_left (rtt_thresh_le _) _) hbound
      have hmid : ∃ h3,
          ((h.collect_rtt_sample i.rtt_est.latest).exitStep).entryStep = some h3 := by
        by_cases hg : ((h.collect_rtt_sample i.rtt_est.latest).exitStep).entryGuard = true
        · rw [entryStep_eval hg (durAdd_of_le hadd)]
          split
          · exact ⟨_, rfl⟩
          · exact ⟨_, rfl⟩
        · refine ⟨(h.collect_rtt_sample i.rtt_est.latest).exitStep, ?_⟩
          unfold HyStart.entryStep
          rw [if_neg hg]
      obtain ⟨h3, hmid⟩ := hmid
      rw [hystartPath_some_intro hmid]
      simp
    · rw [acked_fallback ha hs]
      simp

/-- Engine with a small previous-round minimum, used by the C9 witness. -/
def H9W : HyStart :=
  { limit := 8
    current :=
    { last_round_min_rtt := 1000
      current_round_min_rtt := DURATION_MAX
      rtt_sample_count := 0
      window_end := none
      css_baseline_min_rtt := DURATION_MAX
      css_round_count := 0 } }

/-- Precondition-violating input for the C9 witness (threshold 5 < window 10). -/
def IA : AckInput :=
  { curr_cwnd := 10, ssthresh := 5, new_acked := 1
    rtt_est := { latest := 1 }, max_datagram_size := 1, largest_acked := 0 }

/-- Well-behaved HyStart-path input for the C9 witness. -/
def IB : AckInput :=
  { curr_cwnd := 0, ssthresh := USIZE_MAX, new_acked := 10
    rtt_est := { latest := 500 }, max_datagram_size := 10, largest_acked := 0 }

/-- Witness for the amended C9: both implications exercised at concrete
inputs — a precondition violation panics, a bounded-RTT call completes. -/
theorem c9_assert_and_no_panic_witness :
    (IA.ssthresh < IA.curr_cwnd ∧
      (HyStart.new false).on_packets_acked classic0 IA = none) ∧
    (IB.curr_cwnd ≤ IB.ssthresh ∧
      H9W.current.last_round_min_rtt + HyStart.MAX_RTT_THRESH ≤ DURATION_MAX ∧
      H9W.on_packets_acked classic0 IB ≠ none) :=
  ⟨⟨by decide, (c9_assert_and_no_panic classic0 (HyStart.new false) IA).1 (by decide)⟩,
   ⟨by decide, by decide,
    (c9_assert_and_no_panic classic0 H9W IB).2 (by decide) (by decide)⟩⟩

/-! ### C4 -/

/-- C4: starting from a reachable, non-CSS state, a HyStart-path call whose
CSS-entry transition fires, followed by any event trace along which the
engine respects the precondition and never triggers the CSS-exit branch
(`cssSafeTrace`): every round closure while in CSS increments
`css_round_count` (counted by `cssTracePlan` starting from 0, as guaranteed
by the reachability invariant), each call reports `exit_slow_start` true
exactly when its closure lifts the counter to `CSS_ROUNDS = 5` — so across
five closures the first four report `false` and the fifth `true` — and CSS
membership (`css_baseline_min_rtt`) is never cleared by that exit. -/
theorem c4_forced_exit {classic : ClassicSS} {h : HyStart} {i : AckInput}
    (es : List Event)
    (hreach : Reaches classic h)
    (hnc : h.in_css = false)
    (hss : i.ssthresh = USIZE_MAX)
    (hcw : i.curr_cwnd ≤ USIZE_MAX)
    (hef : (h.collect_rtt_sample i.rtt_est.latest).entryFires = true)
    (hsafe : cssSafeTrace classic h (Event.acked i :: es) = true)
    (hlen : es.length + 1 < 2 ^ 64) :
    ∃ hf bs, runEvents classic h (Event.acked i :: es) = some (hf, bs) ∧
      hf.in_css = true ∧
      hf.current.css_round_count =
        (cssTracePlan h.current.window_end 0 (Event.acked i :: es)).2.1 ∧
      bs = (cssTracePlan h.current.window_end 0 (Event.acked i :: es)).2.2 := by
  have hc0 : h.current.css_round_count = 0 := reaches_CountZero hreach hnc
  have hcall := entry_call classic hnc hss hcw hef
  set h3 : HyStart :=
    { h.collect_rtt_sample i.rtt_est.latest with current :=
      { (h.collect_rtt_sample i.rtt_est.latest).current with css_baseline_min_rtt :=
        (h.collect_rtt_sample i.rtt_est.latest).current.current_round_min_rtt } } with hh3
  obtain ⟨-, -, hcur, -⟩ := entryGuard_elim (entryFires_elim hef).1
  have h3css : h3.in_css = true := by
    simp [hh3, HyStart.in_css, hcur]
  have h3cnt : h3.current.css_round_count = 0 := hc0
  have h3w : h3.current.window_end = h.current.window_end :=
    collect_window h i.rtt_est.latest
  simp only [cssSafeTrace, Bool.and_eq_true, Bool.not_eq_true', decide_eq_true_eq]
    at hsafe
  obtain ⟨⟨⟨-, -⟩, -⟩, hrest⟩ := hsafe
  rcases hw : h.current.window_end with - | we
  · have hclo := closureStep_of_no_window (h3w.trans hw) i.largest_acked
    rw [hclo] at hcall
    rw [hcall] at hrest
    obtain ⟨hf, bs, hrun, hfc, -, -, hfcnt, hbs⟩ :=
      cssRun es h3 h3css hrest (by rw [h3cnt]; omega)
    refine ⟨hf, false :: bs, ?_, hfc, ?_, ?_⟩
    · simp only [runEvents, HyStart.step]
      rw [hcall]
      dsimp only
      rw [hrun]
    · simp only [cssTracePlan]
      rw [hfcnt, h3w, hw, h3cnt]
    · simp only [cssTracePlan]
      rw [hbs, h3w, hw, h3cnt]
  · by_cases hle : we ≤ i.largest_acked
    · have hclo := closureStep_of_close_css (h3w.trans hw) hle h3css
      rw [hclo] at hcall
      rw [hcall] at hrest
      have hmod : (h3.current.css_round_count + 1) % 2 ^ 64 = 1 := by
        rw [h3cnt]
        decide
      set h4 : HyStart :=
        { h3 with current :=
          { h3.current with
            window_end := none
            css_round_count := (h3.current.css_round_count + 1) % 2 ^ 64 } } with hh4
      have h4css : h4.in_css = true := h3css
      have h4cnt : h4.current.css_round_count = 1 := hmod
      have h4w : h4.current.window_end = none := rfl
      obtain ⟨hf, bs, hrun, hfc, -, -, hfcnt, hbs⟩ :=
        cssRun es h4 h4css hrest (by rw [h4cnt]; omega)
      refine ⟨hf, decide (HyStart.CSS_ROUNDS ≤ 0 + 1) :: bs, ?_, hfc, ?_, ?_⟩
      · simp only [runEvents, HyStart.step]
        rw [hcall]
        dsimp only
        rw [hrun, hmod]
      · simp only [cssTracePlan]
        rw [if_pos hle, hfcnt, h4w, h4cnt]
      · simp only [cssTracePlan]
        rw [if_pos hle, hbs, h4w, h4cnt]
    · have hclo := closureStep_of_no_close (h3w.trans hw) hle
      rw [hclo] at hcall
      rw [hcall] at hrest
      obtain ⟨hf, bs, hrun, hfc, -, -, hfcnt, hbs⟩ :=
        cssRun es h3 h3css hrest (by rw [h3cnt]; omega)
      refine ⟨hf, false :: bs, ?_, hfc, ?_, ?_⟩
      · simp only [runEvents, HyStart.step]
        rw [hcall]
        dsimp only
        rw [hrun]
      · simp only [cssTracePlan]
        rw [if_neg hle, hfcnt, h3w, hw, h3cnt]
      · simp only [cssTracePlan]
        rw [if_neg hle, hbs, h3w, hw, h3cnt]

/-- Event trace reaching `H0C4`: a 100ms round then seven 130ms samples of
an open round ending at packet 20. -/
def preC4 : List Event :=
  [.sent 10, .acked (ackIn 100000000 10), .sent 20,
   .acked (ackIn 130000000 11), .acked (ackIn 130000000 12), .acked (ackIn 130000000 13),
   .acked (ackIn 130000000 14), .acked (ackIn 130000000 15), .acked (ackIn 130000000 16),
   .acked (ackIn 130000000 17)]

/-- The reachable state at the end of `preC4`: not in CSS, previous-round
minimum 100ms, seven 130ms samples, round open until packet 20. -/
def H0C4 : HyStart :=
  { limit := 8
    current :=
    { last_round_min_rtt := 100000000
      current_round_min_rtt := 130000000
      rtt_sample_count := 7
      window_end := some 20
      css_baseline_min_rtt := DURATION_MAX
      css_round_count := 0 } }

/-- The CSS-entering call for the C4 witness: the eighth 130ms sample,
which also closes the round (130ms ≥ 100ms + 12.5ms). -/
def I4 : AckInput := ackIn 130000000 20

/-- Four further rounds, each opened by a send and closed by a single ack,
while the engine stays in CSS. -/
def ES4 : List Event :=
  [.sent 30, .acked (ackIn 200000000 30), .sent 40, .acked (ackIn 200000000 40),
   .sent 50, .acked (ackIn 200000000 50), .sent 60, .acked (ackIn 200000000 60)]

/-- Witness for C4 at a concrete five-closure trace: the planned flags are
`false` for the first four closures and `true` for the fifth, the final
CSS round counter is 5, and the theorem instantiates to this run. -/
theorem c4_forced_exit_witness :
    (cssTracePlan H0C4.current.window_end 0 (Event.acked I4 :: ES4)).2.2 =
      [false, false, false, false, false, false, false, false, true] ∧
    (cssTracePlan H0C4.current.window_end 0 (Event.acked I4 :: ES4)).2.1 = 5 ∧
    cssSafeTrace classic0 H0C4 (Event.acked I4 :: ES4) = true ∧
    (∃ hf bs, runEvents classic0 H0C4 (Event.acked I4 :: ES4) = some (hf, bs) ∧
      hf.in_css = true ∧
      hf.current.css_round_count =
        (cssTracePlan H0C4.current.window_end 0 (Event.acked I4 :: ES4)).2.1 ∧
      bs = (cssTracePlan H0C4.current.window_end 0 (Event.acked I4 :: ES4)).2.2) :=
  ⟨by decide, by decide, by decide,
   c4_forced_exit ES4 ⟨false, preC4, List.replicate 10 false, by decide⟩
     rfl rfl (by decide) (by decide) (by decide) (by decide)⟩
